import Mathlib

/-!
Shallow embedding of the engineer movement-and-state simulation of the
3D-HVAC repository (source: the `Engineer` class and its collaborators in
`src/unnamed/part_000`; `src/main.js` is an earlier near-duplicate of the
same design).  JavaScript floating-point numbers are modelled as real
numbers; `THREE.Vector3` becomes `Vec3`; the mutable `this` object becomes
explicit state passing on the `Engineer` structure.  The global
`collisionObjects` array and the `engineers` array (with the
`otherEngineer === this || !otherEngineer.model` skip) are modelled by a
`World` record holding the obstacle list and the list of the *other*
engineers' current positions.  The `setTimeout`-driven flag clearing and
the DOM/`THREE` presentation calls (`mixer.update`, dialogue bubbles) are
external to the claims; the mixer clock is kept as a `mixerTime` field so
that `update` still consumes its `deltaTime` argument exactly where the
source does.  An arrival callback in the source is a JavaScript closure
that synchronously calls `work()` / `speak()` on the engineer (see the
`moveTo(targetPos, () => { engineer.work(8000); engineer.speak(...) })`
call site); it is modelled as a function on the speaking/working flag pair.
-/

open Classical

/-- A `THREE.Vector3`: three real coordinates. -/
structure Vec3 where
  x : ℝ
  y : ℝ
  z : ℝ

/-- Planar (XZ-plane) Euclidean distance, as computed by
`new THREE.Vector2(a.x - b.x, a.z - b.z).length()` in the source. -/
noncomputable def planarDist (a b : Vec3) : ℝ :=
  Real.sqrt ((a.x - b.x) ^ 2 + (a.z - b.z) ^ 2)

/-- An entry of the global `collisionObjects` array: a world position and
the effective collision radius (the value of `obj.userData.radius || 1`). -/
structure Obstacle where
  pos : Vec3
  radius : ℝ

/-- The speaking/working flag pair of an engineer, the part of the actor
state that an arrival callback mutates synchronously (the in-repo callbacks
call `engineer.work(...)` and `engineer.speak(...)`, which set
`isWorking` / `isSpeaking`). -/
structure Flags where
  isSpeaking : Bool
  isWorking : Bool

/-- The behavioral states of the `Engineer` state machine
(`'idle' | 'walking' | 'talking' | 'working'`). -/
inductive EState where
  | idle
  | walking
  | talking
  | working
deriving DecidableEq

/-- The names of the animation clips loaded by `loadModel`/`loadAnimation`
(`'standing' | 'walking' | 'talking' | 'working'`). -/
inductive AnimName where
  | standing
  | walking
  | talking
  | working
deriving DecidableEq

/-- The `stateAnimationMap` object of `setState`. -/
def stateAnimationMap : EState → AnimName
  | EState.idle => AnimName.standing
  | EState.walking => AnimName.walking
  | EState.talking => AnimName.talking
  | EState.working => AnimName.working

/-- The mutable per-engineer state of the `Engineer` class.  `animations`
records which clips have been loaded (`this.animations[name]` being
present); `pos`/`yaw` are `this.model.position` / `this.model.rotation.y`
(the model is taken as loaded, as in the running scene); `mixerTime` is the
accumulated clock of `this.mixer`. -/
structure Engineer where
  pos : Vec3
  yaw : ℝ
  currentState : EState
  currentAnimation : Option AnimName
  animations : AnimName → Bool
  targetPosition : Option Vec3
  speed : ℝ
  isSpeaking : Bool
  isWorking : Bool
  onArrivalCallback : Option (Flags → Flags)
  mixerTime : ℝ

/-- The environment one engineer's collision checks see: the global
`collisionObjects` list and the current positions of the *other* engineers
(the `engineers` loop skips `this` and model-less entries). -/
structure World where
  obstacles : List Obstacle
  others : List Vec3

/-- The fixed `engineerRadius` constant of `checkCollision`. -/
noncomputable def engineerRadius : ℝ := 0.5

/-- The first loop of `checkCollision`: scan the obstacle list, returning
true as soon as the planar distance to an obstacle is below
`engineerRadius + radius`. -/
noncomputable def obstacleBlocked (p : Vec3) : List Obstacle → Prop
  | [] => False
  | o :: rest =>
      planarDist p o.pos < engineerRadius + o.radius ∨ obstacleBlocked p rest

/-- The second loop of `checkCollision`: scan the other engineers,
returning true as soon as the planar distance to one of them is below
`engineerRadius * 2`. -/
noncomputable def engineerBlocked (p : Vec3) : List Vec3 → Prop
  | [] => False
  | q :: rest => planarDist p q < engineerRadius * 2 ∨ engineerBlocked p rest

/-- `Engineer.checkCollision(newPosition)`: blocked by some obstacle or by
some other engineer. -/
noncomputable def checkCollision (w : World) (p : Vec3) : Prop :=
  obstacleBlocked p w.obstacles ∨ engineerBlocked p w.others

/-- `Engineer.setState(newState)`: a no-op when the state is unchanged or
when the needed animation clip is not loaded; otherwise the clip swap is
performed and `currentState`/`currentAnimation` are updated. -/
def setState (e : Engineer) (s : EState) : Engineer :=
  if e.currentState = s then e
  else if e.animations (stateAnimationMap s) = false then e
  else { e with currentState := s, currentAnimation := some (stateAnimationMap s) }

/-- JavaScript's `Math.atan2(y, x)`. -/
noncomputable def atan2 (y x : ℝ) : ℝ :=
  if 0 < x then Real.arctan (y / x)
  else if x < 0 then
    (if 0 ≤ y then Real.arctan (y / x) + Real.pi
     else Real.arctan (y / x) - Real.pi)
  else
    (if 0 < y then Real.pi / 2
     else if y < 0 then -(Real.pi / 2)
     else 0)

/-- `Engineer.moveTo(targetPos, onArrival)`.  The `Math.random()` draw for
the deflection angle is passed in as the explicit parameter `θ`; the
deflected point is `targetPos + (cos θ, 0, sin θ) · 3` exactly as in the
source, and the stored target has its `y` pinned to `0`. -/
noncomputable def moveTo (w : World) (θ : ℝ) (e : Engineer) (targetPos : Vec3)
    (onArrival : Option (Flags → Flags)) : Engineer :=
  let t : Vec3 :=
    if checkCollision w targetPos then
      ⟨targetPos.x + Real.cos θ * 3, 0, targetPos.z + Real.sin θ * 3⟩
    else targetPos
  { e with targetPosition := some ⟨t.x, 0, t.z⟩, onArrivalCallback := onArrival }

/-- The arrival branch of `Engineer.update` (the `else` of
`if (distance > 0.5)`), applied after `targetPosition` has been cleared:
invoke and clear the callback if present, then fall back to idle when
neither speaking nor working.  The second component counts how many times
the arrival callback was invoked during the step. -/
noncomputable def arrive (e : Engineer) (cb : Option (Flags → Flags)) :
    Engineer × Nat :=
  match cb with
  | some f =>
      let fl := f ⟨e.isSpeaking, e.isWorking⟩
      let e2 := { e with
        isSpeaking := fl.isSpeaking
        isWorking := fl.isWorking
        onArrivalCallback := none }
      (if e2.isSpeaking = false ∧ e2.isWorking = false
       then setState e2 EState.idle else e2, 1)
  | none =>
      (if e.isSpeaking = false ∧ e.isWorking = false
       then setState e EState.idle else e, 0)

/-- The movement block of `Engineer.update` (guarded by
`this.targetPosition && this.model && !this.isWorking`): walk toward the
target with step magnitude `min(speed, distance)`, resolving the candidate
position through the direct / perpendicular / perpendicular / stay chain of
`checkCollision` tests, smoothly rotating toward the heading; or fire the
arrival branch once within the 0.5 threshold.  Mirrors source lines
330–390 of the `Engineer` class. -/
noncomputable def moveStep (w : World) (e : Engineer) : Engineer × Nat :=
  match e.targetPosition with
  | none => (e, 0)
  | some t =>
      if e.isWorking = true then (e, 0)
      else
        let dx := t.x - e.pos.x
        let dz := t.z - e.pos.z
        let distance := Real.sqrt (dx ^ 2 + dz ^ 2)
        if 0.5 < distance then
          let e1 :=
            if e.currentState ≠ EState.walking then setState e EState.walking
            else e
          let ux := dx / distance
          let uz := dz / distance
          let m := min e.speed distance
          let cand : Vec3 := ⟨e.pos.x + ux * m, 0, e.pos.z + uz * m⟩
          let alt1 : Vec3 := ⟨e.pos.x + -uz * m, e.pos.y, e.pos.z + ux * m⟩
          let alt2 : Vec3 := ⟨e.pos.x + uz * m, e.pos.y, e.pos.z + -ux * m⟩
          let e2 :=
            if ¬ checkCollision w cand then { e1 with pos := cand }
            else if ¬ checkCollision w alt1 then { e1 with pos := alt1 }
            else if ¬ checkCollision w alt2 then { e1 with pos := alt2 }
            else e1
          let targetAngle := atan2 ux uz
          let angleDiff := targetAngle - e2.yaw
          let shortest := atan2 (Real.sin angleDiff) (Real.cos angleDiff)
          ({ e2 with yaw := e2.yaw + shortest * 0.1 }, 0)
        else
          arrive { e with targetPosition := none } e.onArrivalCallback

/-- The state-management block at the end of `Engineer.update` (source
lines 392–406): working wins, then talking when speaking and not walking
toward a target, then idle when nothing is pending. -/
noncomputable def stateManage (e : Engineer) : Engineer :=
  if e.isWorking = true then
    (if e.currentState ≠ EState.working then setState e EState.working else e)
  else if e.isSpeaking = true ∧ e.targetPosition = none then
    (if e.currentState ≠ EState.talking then setState e EState.talking else e)
  else if e.targetPosition = none ∧ e.isWorking = false ∧ e.isSpeaking = false then
    (if e.currentState ≠ EState.idle then setState e EState.idle else e)
  else e

/-- `Engineer.update(deltaTime)`: advance the animation mixer by
`deltaTime`, run the movement block, then the state-management block.  The
second component counts arrival-callback invocations in this frame. -/
noncomputable def update (w : World) (dt : ℝ) (e : Engineer) : Engineer × Nat :=
  let e0 := { e with mixerTime := e.mixerTime + dt }
  let r := moveStep w e0
  (stateManage r.1, r.2)

/-- Run a sequence of simulation frames (each with its own world snapshot
and `deltaTime`), accumulating the number of arrival-callback
invocations. -/
noncomputable def runFrom (e : Engineer) : List (World × ℝ) → Engineer × Nat
  | [] => (e, 0)
  | (w, dt) :: rest =>
      let r := update w dt e
      let r2 := runFrom r.1 rest
      (r2.1, r.2 + r2.2)

/-- The fixed precedence order of §4.3 of the specification, as a function
of the working/speaking flags and of whether the actor is mid-walk:
Working > Talking > Walking > Idle, with Talking suppressed while
mid-walk. -/
noncomputable def precedenceState (working speaking : Bool) (midWalk : Prop) :
    EState :=
  if working = true then EState.working
  else if speaking = true ∧ ¬ midWalk then EState.talking
  else if midWalk then EState.walking
  else EState.idle

/-- An engineer is mid-walk when it is not working, has a movement target,
and is still farther from it than the 0.5 arrival threshold. -/
noncomputable def midWalk (e : Engineer) : Prop :=
  ∃ t, e.targetPosition = some t ∧ e.isWorking = false ∧
    0.5 < planarDist e.pos t

/-- A world with no obstacles and no other engineers. -/
noncomputable def emptyWorld : World := ⟨[], []⟩

/-- A world with a single obstacle of radius 1 at `(10, 0, 0)`. -/
noncomputable def obsWorld : World := ⟨[⟨⟨10, 0, 0⟩, 1⟩], []⟩

/-- A world with a single other engineer standing at `(1, 0, 0)`. -/
noncomputable def blockWorld : World := ⟨[], [⟨1, 0, 0⟩]⟩

/-- A world with a single other engineer standing at the origin. -/
noncomputable def originWorld : World := ⟨[], [⟨0, 0, 0⟩]⟩

/-- A freshly constructed engineer at the origin with every animation clip
loaded, mirroring the constructor defaults of the `Engineer` class
(`speed = 0.05`, idle, no target, no flags). -/
noncomputable def baseActor : Engineer where
  pos := ⟨0, 0, 0⟩
  yaw := 0
  currentState := EState.idle
  currentAnimation := some AnimName.standing
  animations := fun _ => true
  targetPosition := none
  speed := 0.05
  isSpeaking := false
  isWorking := false
  onArrivalCallback := none
  mixerTime := 0

/-- baseActor standing on its own target, with an arrival continuation
that starts work (the in-repo fix-flow callback shape). -/
noncomputable def arrivalActor : Engineer :=
  { baseActor with
    targetPosition := some ⟨0, 0, 0⟩
    onArrivalCallback := some (fun fl => ⟨fl.isSpeaking, true⟩) }

/-- baseActor sent toward the point `(10, 0, 0)`. -/
noncomputable def walkActor : Engineer :=
  { baseActor with targetPosition := some ⟨10, 0, 0⟩ }

/-- An actor whose animation clips have not loaded yet (the `Engineer`
constructor starts with an empty `animations` table) but whose working
flag is set. -/
noncomputable def unloadedActor : Engineer :=
  { baseActor with animations := fun _ => false, isWorking := true }

/-! Field-preservation lemmas for the building blocks of `update`. -/

/-- setState never changes the position. -/
theorem setState_pos (e : Engineer) (s : EState) : (setState e s).pos = e.pos := by
  unfold setState; split_ifs <;> rfl

/-- setState never changes the movement target. -/
theorem setState_targetPosition (e : Engineer) (s : EState) :
    (setState e s).targetPosition = e.targetPosition := by
  unfold setState; split_ifs <;> rfl

/-- setState never changes the speaking flag. -/
theorem setState_isSpeaking (e : Engineer) (s : EState) :
    (setState e s).isSpeaking = e.isSpeaking := by
  unfold setState; split_ifs <;> rfl

/-- setState never changes the working flag. -/
theorem setState_isWorking (e : Engineer) (s : EState) :
    (setState e s).isWorking = e.isWorking := by
  unfold setState; split_ifs <;> rfl

/-- setState never changes the arrival callback. -/
theorem setState_onArrivalCallback (e : Engineer) (s : EState) :
    (setState e s).onArrivalCallback = e.onArrivalCallback := by
  unfold setState; split_ifs <;> rfl

/-- setState never changes the loaded-clips table. -/
theorem setState_animations (e : Engineer) (s : EState) :
    (setState e s).animations = e.animations := by
  unfold setState; split_ifs <;> rfl

/-- When the requested state's clip is loaded, setState commits to it. -/
theorem setState_currentState_loaded (e : Engineer) (s : EState)
    (h : e.animations (stateAnimationMap s) = true) :
    (setState e s).currentState = s := by
  unfold setState
  split_ifs with h1 h2
  · exact h1
  · rw [h] at h2; exact absurd h2 (by decide)
  · rfl

/-- Forcing a state (the `if (currentState !== s) setState(s)` pattern)
lands in that state when its clip is loaded. -/
theorem forceState_currentState (e : Engineer) (s : EState)
    (h : e.animations (stateAnimationMap s) = true) :
    (if e.currentState ≠ s then setState e s else e).currentState = s := by
  split_ifs with h1
  · exact setState_currentState_loaded e s h
  · exact not_not.mp h1

/-- stateManage never changes the position. -/
theorem stateManage_pos (e : Engineer) : (stateManage e).pos = e.pos := by
  unfold stateManage
  split_ifs <;> simp [setState_pos]

/-- stateManage never changes the movement target. -/
theorem stateManage_targetPosition (e : Engineer) :
    (stateManage e).targetPosition = e.targetPosition := by
  unfold stateManage
  split_ifs <;> simp [setState_targetPosition]

/-- stateManage never changes the speaking flag. -/
theorem stateManage_isSpeaking (e : Engineer) :
    (stateManage e).isSpeaking = e.isSpeaking := by
  unfold stateManage
  split_ifs <;> simp [setState_isSpeaking]

/-- stateManage never changes the working flag. -/
theorem stateManage_isWorking (e : Engineer) :
    (stateManage e).isWorking = e.isWorking := by
  unfold stateManage
  split_ifs <;> simp [setState_isWorking]

/-- stateManage never changes the arrival callback. -/
theorem stateManage_onArrivalCallback (e : Engineer) :
    (stateManage e).onArrivalCallback = e.onArrivalCallback := by
  unfold stateManage
  split_ifs <;> simp [setState_onArrivalCallback]

/-- Resulting behavioral state of the state-management block, assuming all
animation clips are loaded. -/
theorem stateManage_currentState (e : Engineer)
    (hl : ∀ s, e.animations s = true) :
    (stateManage e).currentState =
      if e.isWorking = true then EState.working
      else if e.isSpeaking = true ∧ e.targetPosition = none then EState.talking
      else if e.targetPosition = none ∧ e.isWorking = false ∧ e.isSpeaking = false
      then EState.idle
      else e.currentState := by
  unfold stateManage
  split_ifs <;>
    first
      | rfl
      | exact setState_currentState_loaded e _ (hl _)
      | (rename_i hin; exact not_not.mp hin)

/-- setState never changes the yaw. -/
theorem setState_yaw (e : Engineer) (s : EState) : (setState e s).yaw = e.yaw := by
  unfold setState; split_ifs <;> rfl

/-- The arrival branch never changes the position. -/
theorem arrive_pos (e : Engineer) (cb : Option (Flags → Flags)) :
    (arrive e cb).1.pos = e.pos := by
  unfold arrive
  cases cb <;> simp only <;> split_ifs <;> simp [setState_pos]

/-- The arrival branch never changes the movement target. -/
theorem arrive_targetPosition (e : Engineer) (cb : Option (Flags → Flags)) :
    (arrive e cb).1.targetPosition = e.targetPosition := by
  unfold arrive
  cases cb <;> simp only <;> split_ifs <;> simp [setState_targetPosition]

/-- The arrival branch never changes the loaded-clips table. -/
theorem arrive_animations (e : Engineer) (cb : Option (Flags → Flags)) :
    (arrive e cb).1.animations = e.animations := by
  unfold arrive
  cases cb <;> simp only <;> split_ifs <;> simp [setState_animations]

/-- When the engineer's stored callback is the one handed to the arrival
branch, the callback slot is cleared afterwards. -/
theorem arrive_callback_cleared (e : Engineer) (cb : Option (Flags → Flags))
    (h : cb = e.onArrivalCallback) :
    (arrive e cb).1.onArrivalCallback = none := by
  unfold arrive
  cases hc : cb <;> simp only <;> split_ifs <;>
    simp [setState_onArrivalCallback, ← h, hc]

/-- The arrival branch invokes the callback exactly once when one is set,
never otherwise. -/
theorem arrive_count (e : Engineer) (cb : Option (Flags → Flags)) :
    (arrive e cb).2 = if cb.isSome then 1 else 0 := by
  unfold arrive
  cases cb <;> simp

/-- Flags after the arrival branch: the callback's output when a callback
was set, the previous flags otherwise. -/
theorem arrive_flags (e : Engineer) (cb : Option (Flags → Flags)) :
    ((arrive e cb).1.isSpeaking, (arrive e cb).1.isWorking) =
      (match cb with
       | some f => ((f ⟨e.isSpeaking, e.isWorking⟩).isSpeaking,
                    (f ⟨e.isSpeaking, e.isWorking⟩).isWorking)
       | none => (e.isSpeaking, e.isWorking)) := by
  unfold arrive
  cases cb <;> simp only <;> split_ifs <;>
    simp [setState_isSpeaking, setState_isWorking]

/-- Movement block when there is no movement target: nothing happens. -/
theorem moveStep_no_target (w : World) (e : Engineer)
    (h : e.targetPosition = none) : moveStep w e = (e, 0) := by
  unfold moveStep; rw [h]

/-- Movement block when the engineer is working: nothing happens even if a
target is set. -/
theorem moveStep_working (w : World) (e : Engineer)
    (h : e.isWorking = true) : moveStep w e = (e, 0) := by
  unfold moveStep
  cases ht : e.targetPosition <;> simp [h]

/-- Movement block in the arrival case (distance within the 0.5
threshold): clear the target and run the arrival branch. -/
theorem moveStep_arrival (w : World) (e : Engineer) (t : Vec3)
    (ht : e.targetPosition = some t) (hw : e.isWorking = false)
    (hd : ¬ 0.5 < Real.sqrt ((t.x - e.pos.x) ^ 2 + (t.z - e.pos.z) ^ 2)) :
    moveStep w e = arrive { e with targetPosition := none } e.onArrivalCallback := by
  unfold moveStep
  rw [ht]
  simp only [hw, Bool.false_eq_true, if_false, hd, if_false]

/-- Movement block in the walking case (distance above the 0.5
threshold), written out as one equation. -/
theorem moveStep_walk_eq (w : World) (e : Engineer) (t : Vec3)
    (ht : e.targetPosition = some t) (hw : e.isWorking = false)
    (hd : 0.5 < Real.sqrt ((t.x - e.pos.x) ^ 2 + (t.z - e.pos.z) ^ 2)) :
    moveStep w e =
      (let dx := t.x - e.pos.x
       let dz := t.z - e.pos.z
       let distance := Real.sqrt (dx ^ 2 + dz ^ 2)
       let e1 :=
         if e.currentState ≠ EState.walking then setState e EState.walking
         else e
       let ux := dx / distance
       let uz := dz / distance
       let m := min e.speed distance
       let cand : Vec3 := ⟨e.pos.x + ux * m, 0, e.pos.z + uz * m⟩
       let alt1 : Vec3 := ⟨e.pos.x + -uz * m, e.pos.y, e.pos.z + ux * m⟩
       let alt2 : Vec3 := ⟨e.pos.x + uz * m, e.pos.y, e.pos.z + -ux * m⟩
       let e2 :=
         if ¬ checkCollision w cand then { e1 with pos := cand }
         else if ¬ checkCollision w alt1 then { e1 with pos := alt1 }
         else if ¬ checkCollision w alt2 then { e1 with pos := alt2 }
         else e1
       let targetAngle := atan2 ux uz
       let angleDiff := targetAngle - e2.yaw
       let shortest := atan2 (Real.sin angleDiff) (Real.cos angleDiff)
       ({ e2 with yaw := e2.yaw + shortest * 0.1 }, 0)) := by
  unfold moveStep
  rw [ht]
  simp only [hw, Bool.false_eq_true, if_false, hd, if_true]

/-- Planar distance is symmetric. -/
theorem planarDist_comm (a b : Vec3) : planarDist a b = planarDist b a := by
  unfold planarDist
  ring_nf

/-- Planar distance is nonnegative. -/
theorem planarDist_nonneg (a b : Vec3) : 0 ≤ planarDist a b :=
  Real.sqrt_nonneg _

/-- The obstacle loop of checkCollision hits exactly when some listed
obstacle is closer than its minimum separation. -/
theorem obstacleBlocked_iff (p : Vec3) (l : List Obstacle) :
    obstacleBlocked p l ↔
      ∃ o ∈ l, planarDist p o.pos < engineerRadius + o.radius := by
  induction l with
  | nil => simp [obstacleBlocked]
  | cons o rest ih => simp [obstacleBlocked, ih]

/-- The engineer loop of checkCollision hits exactly when some other
engineer is closer than twice the engineer radius. -/
theorem engineerBlocked_iff (p : Vec3) (l : List Vec3) :
    engineerBlocked p l ↔ ∃ q ∈ l, planarDist p q < engineerRadius * 2 := by
  induction l with
  | nil => simp [engineerBlocked]
  | cons q rest ih => simp [engineerBlocked, ih]

/-- A position that passes checkCollision keeps the minimum separation
from every obstacle. -/
theorem sep_of_not_blocked (w : World) (p : Vec3) (o : Obstacle)
    (h : ¬ checkCollision w p) (ho : o ∈ w.obstacles) :
    engineerRadius + o.radius ≤ planarDist p o.pos := by
  by_contra hlt
  exact h (Or.inl ((obstacleBlocked_iff p w.obstacles).mpr
    ⟨o, ho, not_le.mp hlt⟩))

/-- First component of `update`, unfolded. -/
theorem update_fst (w : World) (dt : ℝ) (e : Engineer) :
    (update w dt e).1 =
      stateManage (moveStep w { e with mixerTime := e.mixerTime + dt }).1 := rfl

/-- Second component of `update`, unfolded. -/
theorem update_snd (w : World) (dt : ℝ) (e : Engineer) :
    (update w dt e).2 =
      (moveStep w { e with mixerTime := e.mixerTime + dt }).2 := rfl

/-- Position chosen by the movement block in the walking case: the
direct / perpendicular / perpendicular / stay resolution chain. -/
theorem moveStep_walk_pos (w : World) (e : Engineer) (t : Vec3)
    (ht : e.targetPosition = some t) (hw : e.isWorking = false)
    (hd : 0.5 < Real.sqrt ((t.x - e.pos.x) ^ 2 + (t.z - e.pos.z) ^ 2)) :
    (moveStep w e).1.pos =
      (let distance := Real.sqrt ((t.x - e.pos.x) ^ 2 + (t.z - e.pos.z) ^ 2)
       let ux := (t.x - e.pos.x) / distance
       let uz := (t.z - e.pos.z) / distance
       let m := min e.speed distance
       let cand : Vec3 := ⟨e.pos.x + ux * m, 0, e.pos.z + uz * m⟩
       let alt1 : Vec3 := ⟨e.pos.x + -uz * m, e.pos.y, e.pos.z + ux * m⟩
       let alt2 : Vec3 := ⟨e.pos.x + uz * m, e.pos.y, e.pos.z + -ux * m⟩
       if ¬ checkCollision w cand then cand
       else if ¬ checkCollision w alt1 then alt1
       else if ¬ checkCollision w alt2 then alt2
       else e.pos) := by
  rw [moveStep_walk_eq w e t ht hw hd]
  simp only
  split_ifs <;> simp [setState_pos]

/-- In every frame, the position after the movement block is either
unchanged or a position that passed `checkCollision`. -/
theorem moveStep_pos_cases (w : World) (e : Engineer) :
    (moveStep w e).1.pos = e.pos ∨
      ¬ checkCollision w ((moveStep w e).1.pos) := by
  rcases ht : e.targetPosition with _ | t
  · rw [moveStep_no_target w e ht]
    exact Or.inl rfl
  · by_cases hw : e.isWorking = true
    · rw [moveStep_working w e hw]
      exact Or.inl rfl
    · rw [Bool.not_eq_true] at hw
      by_cases hd : 0.5 <
          Real.sqrt ((t.x - e.pos.x) ^ 2 + (t.z - e.pos.z) ^ 2)
      · rw [moveStep_walk_pos w e t ht hw hd]
        simp only
        split_ifs <;>
          first
            | exact Or.inl rfl
            | (rename_i hlast; exact Or.inr hlast)
      · rw [moveStep_arrival w e t ht hw hd, arrive_pos]
        exact Or.inl rfl

/-- In every frame, the position after `update` is either unchanged or a
position that passed `checkCollision`. -/
theorem update_pos_cases (w : World) (dt : ℝ) (e : Engineer) :
    (update w dt e).1.pos = e.pos ∨
      ¬ checkCollision w ((update w dt e).1.pos) := by
  rw [update_fst, stateManage_pos]
  exact moveStep_pos_cases w { e with mixerTime := e.mixerTime + dt }

/-- Fields untouched by the movement block in the walking case. -/
theorem moveStep_walk_fields (w : World) (e : Engineer) (t : Vec3)
    (ht : e.targetPosition = some t) (hw : e.isWorking = false)
    (hd : 0.5 < Real.sqrt ((t.x - e.pos.x) ^ 2 + (t.z - e.pos.z) ^ 2)) :
    (moveStep w e).2 = 0 ∧
    (moveStep w e).1.targetPosition = e.targetPosition ∧
    (moveStep w e).1.isSpeaking = e.isSpeaking ∧
    (moveStep w e).1.isWorking = e.isWorking ∧
    (moveStep w e).1.onArrivalCallback = e.onArrivalCallback ∧
    (moveStep w e).1.animations = e.animations := by
  rw [moveStep_walk_eq w e t ht hw hd]
  simp only
  split_ifs <;>
    simp [setState_targetPosition, setState_isSpeaking, setState_isWorking,
      setState_onArrivalCallback, setState_animations]

/-- In the walking case the movement block puts the state machine in the
walking state, provided the walking clip is loaded. -/
theorem moveStep_walk_currentState (w : World) (e : Engineer) (t : Vec3)
    (ht : e.targetPosition = some t) (hw : e.isWorking = false)
    (hd : 0.5 < Real.sqrt ((t.x - e.pos.x) ^ 2 + (t.z - e.pos.z) ^ 2))
    (hwalk : e.animations AnimName.walking = true) :
    (moveStep w e).1.currentState = EState.walking := by
  rw [moveStep_walk_eq w e t ht hw hd]
  simp only
  split_ifs <;>
    first
      | exact setState_currentState_loaded e _ hwalk
      | simp_all

/-- The movement block never changes the loaded-clips table. -/
theorem moveStep_animations (w : World) (e : Engineer) :
    (moveStep w e).1.animations = e.animations := by
  rcases ht : e.targetPosition with _ | t
  · rw [moveStep_no_target w e ht]
  · by_cases hw : e.isWorking = true
    · rw [moveStep_working w e hw]
    · rw [Bool.not_eq_true] at hw
      by_cases hd : 0.5 <
          Real.sqrt ((t.x - e.pos.x) ^ 2 + (t.z - e.pos.z) ^ 2)
      · exact (moveStep_walk_fields w e t ht hw hd).2.2.2.2.2
      · rw [moveStep_arrival w e t ht hw hd, arrive_animations]

/-- Core of the state-precedence invariant: one movement block followed by
one state-management block lands in the state dictated by the fixed
precedence order, evaluated on the post-frame flags and on whether the
actor was mid-walk when the frame began. -/
theorem step_precedence (w : World) (e : Engineer)
    (hl : ∀ s, e.animations s = true) :
    (stateManage (moveStep w e).1).currentState =
      precedenceState (stateManage (moveStep w e).1).isWorking
        (stateManage (moveStep w e).1).isSpeaking (midWalk e) := by
  have hla : ∀ s, (moveStep w e).1.animations s = true := by
    rw [moveStep_animations]; exact hl
  rw [stateManage_isWorking, stateManage_isSpeaking,
    stateManage_currentState _ hla]
  rcases ht : e.targetPosition with _ | t
  · rw [moveStep_no_target w e ht]
    have hmw : ¬ midWalk e := by
      rintro ⟨t, ht2, _, _⟩
      rw [ht] at ht2
      cases ht2
    rcases hwk : e.isWorking <;> rcases hsp : e.isSpeaking <;>
      simp [precedenceState, hmw, ht, hwk, hsp]
  · by_cases hw : e.isWorking = true
    · rw [moveStep_working w e hw]
      have hmw : ¬ midWalk e := by
        rintro ⟨t2, _, hw2, _⟩
        rw [hw] at hw2
        cases hw2
      simp [precedenceState, hmw, ht, hw]
    · rw [Bool.not_eq_true] at hw
      by_cases hd : 0.5 <
          Real.sqrt ((t.x - e.pos.x) ^ 2 + (t.z - e.pos.z) ^ 2)
      · obtain ⟨-, htp, hsp, hwk, -, -⟩ := moveStep_walk_fields w e t ht hw hd
        have hcs := moveStep_walk_currentState w e t ht hw hd (hl _)
        have hmw : midWalk e := by
          refine ⟨t, ht, hw, ?_⟩
          rw [planarDist_comm]
          exact hd
        rw [htp, ht, hsp, hwk, hw, hcs]
        simp [precedenceState, hmw]
      · rw [moveStep_arrival w e t ht hw hd]
        have hmw : ¬ midWalk e := by
          rintro ⟨t2, ht2, -, hd2⟩
          rw [ht] at ht2
          injection ht2 with ht2
          subst ht2
          rw [planarDist_comm] at hd2
          exact hd hd2
        have htp : (arrive { e with targetPosition := none }
            e.onArrivalCallback).1.targetPosition = none :=
          arrive_targetPosition _ _
        rcases hwk : (arrive { e with targetPosition := none }
            e.onArrivalCallback).1.isWorking <;>
          rcases hsp : (arrive { e with targetPosition := none }
            e.onArrivalCallback).1.isSpeaking <;>
          simp [precedenceState, hmw, htp, hwk, hsp]

/-- A frame on an engineer with no movement target keeps the target empty
and fires no arrival callback. -/
theorem update_no_target (w : World) (dt : ℝ) (e : Engineer)
    (h : e.targetPosition = none) :
    (update w dt e).1.targetPosition = none ∧ (update w dt e).2 = 0 := by
  constructor
  · rw [update_fst, stateManage_targetPosition,
      moveStep_no_target w { e with mixerTime := e.mixerTime + dt } h]
    exact h
  · rw [update_snd,
      moveStep_no_target w { e with mixerTime := e.mixerTime + dt } h]

/-- No run of further frames fires any arrival callback once the movement
target is empty. -/
theorem runFrom_no_target (e : Engineer) (h : e.targetPosition = none)
    (fs : List (World × ℝ)) : (runFrom e fs).2 = 0 := by
  induction fs generalizing e with
  | nil => simp [runFrom]
  | cons f rest ih =>
      obtain ⟨w, dt⟩ := f
      have h2 := update_no_target w dt e h
      simp [runFrom, h2.2, ih _ h2.1]

/-- Behavior of one frame on an engineer that is within the arrival
threshold of its target and not working: the target is cleared, the
callback slot is cleared, and the callback is invoked exactly once when
present. -/
theorem update_arrival (w : World) (dt : ℝ) (e : Engineer) (t : Vec3)
    (ht : e.targetPosition = some t) (hw : e.isWorking = false)
    (hd : planarDist e.pos t ≤ 0.5) :
    (update w dt e).1.targetPosition = none ∧
    (update w dt e).1.onArrivalCallback = none ∧
    (update w dt e).2 = (if e.onArrivalCallback.isSome then 1 else 0) := by
  have hd2 : ¬ 0.5 < Real.sqrt ((t.x - e.pos.x) ^ 2 + (t.z - e.pos.z) ^ 2) := by
    rw [not_lt]
    exact le_of_eq_of_le (planarDist_comm t e.pos) hd
  refine ⟨?_, ?_, ?_⟩
  · rw [update_fst, stateManage_targetPosition,
      moveStep_arrival w { e with mixerTime := e.mixerTime + dt } t ht hw hd2,
      arrive_targetPosition]
  · rw [update_fst, stateManage_onArrivalCallback,
      moveStep_arrival w { e with mixerTime := e.mixerTime + dt } t ht hw hd2]
    exact arrive_callback_cleared _ _ rfl
  · rw [update_snd,
      moveStep_arrival w { e with mixerTime := e.mixerTime + dt } t ht hw hd2,
      arrive_count]

/-- Evaluate a planar distance from an explicit sum-of-squares witness. -/
theorem planarDist_eval (a b : Vec3) (d : ℝ) (hd : 0 ≤ d)
    (h : (a.x - b.x) ^ 2 + (a.z - b.z) ^ 2 = d ^ 2) : planarDist a b = d := by
  unfold planarDist
  rw [h, Real.sqrt_sq hd]

/-- The position chosen by the movement block only depends on the
position, target, working flag and speed of the engineer. -/
theorem moveStep_pos_congr (w : World) (a b : Engineer)
    (hp : a.pos = b.pos) (ht : a.targetPosition = b.targetPosition)
    (hw : a.isWorking = b.isWorking) (hs : a.speed = b.speed) :
    (moveStep w a).1.pos = (moveStep w b).1.pos := by
  rcases ht2 : a.targetPosition with _ | t
  · rw [moveStep_no_target w a ht2, moveStep_no_target w b (ht.symm.trans ht2)]
    exact hp
  · by_cases hw2 : a.isWorking = true
    · rw [moveStep_working w a hw2, moveStep_working w b (hw.symm.trans hw2)]
      exact hp
    · rw [Bool.not_eq_true] at hw2
      by_cases hd : 0.5 <
          Real.sqrt ((t.x - a.pos.x) ^ 2 + (t.z - a.pos.z) ^ 2)
      · rw [moveStep_walk_pos w a t ht2 hw2 hd,
          moveStep_walk_pos w b t (ht.symm.trans ht2) (hw.symm.trans hw2)
            (hp ▸ hd)]
        simp only
        rw [hp, hs]
      · rw [moveStep_arrival w a t ht2 hw2 hd,
          moveStep_arrival w b t (ht.symm.trans ht2) (hw.symm.trans hw2)
            (hp ▸ hd),
          arrive_pos, arrive_pos]
        exact hp

/-- A frame either keeps a stored movement target unchanged or clears it;
it never replaces it with a different point. -/
theorem update_target_hold_or_clear (w : World) (dt : ℝ) (e : Engineer)
    (p : Vec3) (h : e.targetPosition = some p) :
    (update w dt e).1.targetPosition = some p ∨
      (update w dt e).1.targetPosition = none := by
  rw [update_fst, stateManage_targetPosition]
  by_cases hw : e.isWorking = true
  · rw [moveStep_working w { e with mixerTime := e.mixerTime + dt } hw]
    exact Or.inl h
  · rw [Bool.not_eq_true] at hw
    by_cases hd : 0.5 <
        Real.sqrt ((p.x - e.pos.x) ^ 2 + (p.z - e.pos.z) ^ 2)
    · left
      rw [(moveStep_walk_fields w { e with mixerTime := e.mixerTime + dt }
        p h hw hd).2.1]
      exact h
    · right
      rw [moveStep_arrival w { e with mixerTime := e.mixerTime + dt }
        p h hw hd, arrive_targetPosition]

/-- Movement-block resolution when the direct candidate is blocked: try
the two perpendicular candidates in order, else stay. -/
theorem step4_aux (w : World) (e : Engineer) (t : Vec3) (d ux uz m : ℝ)
    (ht : e.targetPosition = some t) (hw : e.isWorking = false)
    (hdd : d = Real.sqrt ((t.x - e.pos.x) ^ 2 + (t.z - e.pos.z) ^ 2))
    (hd5 : 0.5 < d)
    (hux : ux = (t.x - e.pos.x) / d) (huz : uz = (t.z - e.pos.z) / d)
    (hm : m = min e.speed d)
    (hb : checkCollision w ⟨e.pos.x + ux * m, 0, e.pos.z + uz * m⟩) :
    (moveStep w e).1.pos =
      (if ¬ checkCollision w ⟨e.pos.x + -uz * m, e.pos.y, e.pos.z + ux * m⟩
       then (⟨e.pos.x + -uz * m, e.pos.y, e.pos.z + ux * m⟩ : Vec3)
       else if ¬ checkCollision w
           ⟨e.pos.x + uz * m, e.pos.y, e.pos.z + -ux * m⟩
       then (⟨e.pos.x + uz * m, e.pos.y, e.pos.z + -ux * m⟩ : Vec3)
       else e.pos) := by
  subst hdd
  subst hux
  subst huz
  subst hm
  rw [moveStep_walk_pos w e t ht hw hd5]
  simp only
  rw [if_neg (not_not_intro hb)]

/-- Distance law of the unblocked direct step: the planar distance to the
target decreases by exactly `min speed distance`. -/
theorem step10_aux (w : World) (e : Engineer) (t : Vec3)
    (ht : e.targetPosition = some t) (hw : e.isWorking = false)
    (hd5 : 0.5 < planarDist e.pos t) (hsp : 0 ≤ e.speed)
    (hfree : ¬ checkCollision w
      ⟨e.pos.x + (t.x - e.pos.x) / planarDist e.pos t *
          min e.speed (planarDist e.pos t), 0,
        e.pos.z + (t.z - e.pos.z) / planarDist e.pos t *
          min e.speed (planarDist e.pos t)⟩) :
    planarDist (moveStep w e).1.pos t =
      planarDist e.pos t - min e.speed (planarDist e.pos t) ∧
    planarDist (moveStep w e).1.pos t ≤ planarDist e.pos t := by
  have hcomm : planarDist e.pos t =
      Real.sqrt ((t.x - e.pos.x) ^ 2 + (t.z - e.pos.z) ^ 2) :=
    planarDist_comm e.pos t
  rw [hcomm] at hd5 hfree ⊢
  rw [moveStep_walk_pos w e t ht hw hd5]
  simp only
  rw [if_pos hfree]
  set S := (t.x - e.pos.x) ^ 2 + (t.z - e.pos.z) ^ 2 with hS
  set D := Real.sqrt S with hD
  set m := min e.speed D with hm
  have hS0 : 0 ≤ S := by rw [hS]; positivity
  have hD0 : 0 < D := lt_trans (by norm_num) hd5
  have hsq : D ^ 2 = S := Real.sq_sqrt hS0
  have hm0 : 0 ≤ m := le_min hsp hD0.le
  have hmD : m ≤ D := min_le_right _ _
  have hkey : planarDist ⟨e.pos.x + (t.x - e.pos.x) / D * m, 0,
      e.pos.z + (t.z - e.pos.z) / D * m⟩ t = D - m := by
    apply planarDist_eval _ _ _ (sub_nonneg.mpr hmD)
    show (e.pos.x + (t.x - e.pos.x) / D * m - t.x) ^ 2 +
        (e.pos.z + (t.z - e.pos.z) / D * m - t.z) ^ 2 = (D - m) ^ 2
    have h1 : e.pos.x + (t.x - e.pos.x) / D * m - t.x
        = (t.x - e.pos.x) * ((m - D) / D) := by
      field_simp
      ring
    have h2 : e.pos.z + (t.z - e.pos.z) / D * m - t.z
        = (t.z - e.pos.z) * ((m - D) / D) := by
      field_simp
      ring
    rw [h1, h2]
    have h4 : ((t.x - e.pos.x) * ((m - D) / D)) ^ 2 +
        ((t.z - e.pos.z) * ((m - D) / D)) ^ 2 = S * ((m - D) / D) ^ 2 := by
      rw [hS]
      ring
    rw [h4, ← hsq]
    field_simp
    ring
  constructor
  · exact hkey
  · rw [hkey]
    exact sub_le_self D hm0

/-- C1: for every actor (with its animation clips loaded) and every
simulation frame, the behavioral state after the frame's state-machine
evaluation follows the fixed precedence Working > Talking > Walking >
Idle: if isWorking is set the state is Working regardless of the speaking
and movement flags; else if isSpeaking is set and the actor is not
mid-walk the state is Talking; else if a movementTarget is set and farther
than the arrival threshold the state is Walking; else the state is
Idle. -/
theorem claim1_state_precedence (w : World) (dt : ℝ) (e : Engineer)
    (hl : ∀ s, e.animations s = true) :
    ((update w dt e).1).currentState =
      precedenceState ((update w dt e).1).isWorking
        ((update w dt e).1).isSpeaking (midWalk e) := by
  rw [update_fst]
  exact step_precedence w { e with mixerTime := e.mixerTime + dt } hl

/-- Witness for C1 at a concrete working actor in an empty world. -/
theorem claim1_witness :
    (∀ s, ({ baseActor with isWorking := true } : Engineer).animations s
      = true) ∧
    ((update emptyWorld 1 { baseActor with isWorking := true }).1).currentState
      = precedenceState
        ((update emptyWorld 1 { baseActor with isWorking := true }).1).isWorking
        ((update emptyWorld 1 { baseActor with isWorking := true }).1).isSpeaking
        (midWalk { baseActor with isWorking := true }) :=
  ⟨fun _ => rfl,
    claim1_state_precedence emptyWorld 1 { baseActor with isWorking := true }
      (fun _ => rfl)⟩

/-- C2: for every obstacle and every frame, if the actor's planar distance
to the obstacle is at least `engineerRadius + radius` before the
collision-resolved movement step, it still is immediately after the step:
movement never reduces a compliant separation below the minimum. -/
theorem claim2_collision_containment (w : World) (dt : ℝ) (e : Engineer)
    (o : Obstacle) (ho : o ∈ w.obstacles)
    (hsep : engineerRadius + o.radius ≤ planarDist e.pos o.pos) :
    engineerRadius + o.radius ≤ planarDist ((update w dt e).1).pos o.pos := by
  rcases update_pos_cases w dt e with h | h
  · rw [h]
    exact hsep
  · exact sep_of_not_blocked w _ o h ho

/-- Witness for C2: an actor at the origin, a compliant obstacle 10 units
away. -/
theorem claim2_witness :
    engineerRadius + (⟨⟨10, 0, 0⟩, 1⟩ : Obstacle).radius ≤
      planarDist baseActor.pos (⟨⟨10, 0, 0⟩, 1⟩ : Obstacle).pos ∧
    engineerRadius + (⟨⟨10, 0, 0⟩, 1⟩ : Obstacle).radius ≤
      planarDist ((update obsWorld 1 baseActor).1).pos
        (⟨⟨10, 0, 0⟩, 1⟩ : Obstacle).pos := by
  have h10 : planarDist baseActor.pos (⟨⟨10, 0, 0⟩, 1⟩ : Obstacle).pos = 10 :=
    planarDist_eval _ _ 10 (by norm_num) (by norm_num [baseActor])
  have hsep : engineerRadius + (⟨⟨10, 0, 0⟩, 1⟩ : Obstacle).radius ≤
      planarDist baseActor.pos (⟨⟨10, 0, 0⟩, 1⟩ : Obstacle).pos := by
    rw [h10]
    norm_num [engineerRadius]
  exact ⟨hsep,
    claim2_collision_containment obsWorld 1 baseActor _
      (by simp [obsWorld]) hsep⟩

/-- C3: on the first simulation step at which a non-working actor's planar
distance to its movement target is within the 0.5 arrival threshold,
exactly one arrival event fires: the target is cleared, the continuation
(if set) is invoked exactly once and cleared, and no further simulation
steps invoke any continuation. -/
theorem claim3_arrival_idempotence (w : World) (dt : ℝ) (e : Engineer)
    (t : Vec3) (ht : e.targetPosition = some t) (hw : e.isWorking = false)
    (hd : planarDist e.pos t ≤ 0.5) :
    (update w dt e).1.targetPosition = none ∧
    (update w dt e).1.onArrivalCallback = none ∧
    (update w dt e).2 = (if e.onArrivalCallback.isSome then 1 else 0) ∧
    ∀ frames : List (World × ℝ), (runFrom (update w dt e).1 frames).2 = 0 := by
  obtain ⟨h1, h2, h3⟩ := update_arrival w dt e t ht hw hd
  exact ⟨h1, h2, h3, fun frames => runFrom_no_target _ h1 frames⟩

/-- Witness for C3 at a concrete actor standing on its own target with a
work-starting continuation installed. -/
theorem claim3_witness :
    (arrivalActor.targetPosition = some ⟨0, 0, 0⟩ ∧
     arrivalActor.isWorking = false ∧
     planarDist arrivalActor.pos ⟨0, 0, 0⟩ ≤ 0.5) ∧
    ((update emptyWorld 1 arrivalActor).1.targetPosition = none ∧
     (update emptyWorld 1 arrivalActor).1.onArrivalCallback = none ∧
     (update emptyWorld 1 arrivalActor).2 =
       (if arrivalActor.onArrivalCallback.isSome then 1 else 0) ∧
     ∀ frames : List (World × ℝ),
       (runFrom (update emptyWorld 1 arrivalActor).1 frames).2 = 0) := by
  have hd : planarDist arrivalActor.pos ⟨0, 0, 0⟩ ≤ 0.5 := by
    rw [planarDist_eval _ _ 0 le_rfl (by norm_num [arrivalActor, baseActor])]
    norm_num
  exact ⟨⟨rfl, rfl, hd⟩,
    claim3_arrival_idempotence emptyWorld 1 _ _ rfl rfl hd⟩

/-- Evaluate a square root from an explicit square witness. -/
theorem sqrt_eval (a d : ℝ) (hd : 0 ≤ d) (h : a = d ^ 2) :
    Real.sqrt a = d := by
  rw [h, Real.sqrt_sq hd]

/-- C4: in per-frame movement integration, if the direct candidate
position is blocked, the resolver tries the two perpendicular directions
of the desired delta (rotated plus and minus 90 degrees in the XZ-plane at
the same step magnitude) in order, applying the first unblocked one; if
both are blocked the position is left unchanged for the frame. -/
theorem claim4_step_around (w : World) (dt : ℝ) (e : Engineer) (t : Vec3)
    (d ux uz m : ℝ)
    (ht : e.targetPosition = some t) (hw : e.isWorking = false)
    (hdd : d = Real.sqrt ((t.x - e.pos.x) ^ 2 + (t.z - e.pos.z) ^ 2))
    (hd5 : 0.5 < d)
    (hux : ux = (t.x - e.pos.x) / d) (huz : uz = (t.z - e.pos.z) / d)
    (hm : m = min e.speed d)
    (hb : checkCollision w ⟨e.pos.x + ux * m, 0, e.pos.z + uz * m⟩) :
    (update w dt e).1.pos =
      (if ¬ checkCollision w ⟨e.pos.x + -uz * m, e.pos.y, e.pos.z + ux * m⟩
       then (⟨e.pos.x + -uz * m, e.pos.y, e.pos.z + ux * m⟩ : Vec3)
       else if ¬ checkCollision w
           ⟨e.pos.x + uz * m, e.pos.y, e.pos.z + -ux * m⟩
       then (⟨e.pos.x + uz * m, e.pos.y, e.pos.z + -ux * m⟩ : Vec3)
       else e.pos) := by
  rw [update_fst, stateManage_pos]
  exact step4_aux w { e with mixerTime := e.mixerTime + dt } t d ux uz m
    ht hw hdd hd5 hux huz hm hb

/-- Witness for C4: an actor walking toward `(10, 0, 0)` whose direct step
is blocked by another engineer standing at `(1, 0, 0)`. -/
theorem claim4_witness :
    (walkActor.targetPosition = some ⟨10, 0, 0⟩ ∧
     walkActor.isWorking = false ∧
     (10 : ℝ) = Real.sqrt (((⟨10, 0, 0⟩ : Vec3).x - walkActor.pos.x) ^ 2 +
       ((⟨10, 0, 0⟩ : Vec3).z - walkActor.pos.z) ^ 2) ∧
     checkCollision blockWorld
       ⟨walkActor.pos.x + 1 * 0.05, 0, walkActor.pos.z + 0 * 0.05⟩) ∧
    (update blockWorld 1 walkActor).1.pos =
      (if ¬ checkCollision blockWorld
          ⟨walkActor.pos.x + -0 * 0.05, walkActor.pos.y,
            walkActor.pos.z + 1 * 0.05⟩
       then (⟨walkActor.pos.x + -0 * 0.05, walkActor.pos.y,
         walkActor.pos.z + 1 * 0.05⟩ : Vec3)
       else if ¬ checkCollision blockWorld
           ⟨walkActor.pos.x + 0 * 0.05, walkActor.pos.y,
             walkActor.pos.z + -1 * 0.05⟩
       then (⟨walkActor.pos.x + 0 * 0.05, walkActor.pos.y,
         walkActor.pos.z + -1 * 0.05⟩ : Vec3)
       else walkActor.pos) := by
  have hdd : (10 : ℝ) =
      Real.sqrt (((⟨10, 0, 0⟩ : Vec3).x - walkActor.pos.x) ^ 2 +
        ((⟨10, 0, 0⟩ : Vec3).z - walkActor.pos.z) ^ 2) :=
    (sqrt_eval _ 10 (by norm_num) (by norm_num [walkActor, baseActor])).symm
  have hb : checkCollision blockWorld
      ⟨walkActor.pos.x + 1 * 0.05, 0, walkActor.pos.z + 0 * 0.05⟩ := by
    refine Or.inr (Or.inl ?_)
    unfold planarDist engineerRadius
    rw [Real.sqrt_lt' (by norm_num)]
    norm_num [walkActor, baseActor]
  exact ⟨⟨rfl, rfl, hdd, hb⟩,
    claim4_step_around blockWorld 1 walkActor ⟨10, 0, 0⟩ 10 1 0 0.05 rfl rfl
      hdd (by norm_num)
      (by norm_num [walkActor, baseActor])
      (by norm_num [walkActor, baseActor])
      (by norm_num [walkActor, baseActor, min_def]) hb⟩

/-- C5: checkCollision holds at a position exactly when some obstacle's
planar distance to it is strictly below `engineerRadius + collisionRadius`
or some other engineer's position is strictly within twice the fixed
engineer radius. -/
theorem claim5_isBlocked_iff (w : World) (p : Vec3) :
    checkCollision w p ↔
      (∃ o ∈ w.obstacles, planarDist p o.pos < engineerRadius + o.radius) ∨
      ∃ q ∈ w.others, planarDist p q < engineerRadius * 2 := by
  unfold checkCollision
  rw [obstacleBlocked_iff, engineerBlocked_iff]

/-- C6: a working actor's simulation step changes neither its position nor
its stored movement target, even when a target is set. -/
theorem claim6_working_holds_position (w : World) (dt : ℝ) (e : Engineer)
    (hw : e.isWorking = true) :
    (update w dt e).1.pos = e.pos ∧
    (update w dt e).1.targetPosition = e.targetPosition := by
  constructor
  · rw [update_fst, stateManage_pos,
      moveStep_working w { e with mixerTime := e.mixerTime + dt } hw]
  · rw [update_fst, stateManage_targetPosition,
      moveStep_working w { e with mixerTime := e.mixerTime + dt } hw]

/-- Witness for C6: a working actor that also has a target set. -/
theorem claim6_witness :
    ({ walkActor with isWorking := true } : Engineer).isWorking = true ∧
    ((update emptyWorld 1 { walkActor with isWorking := true }).1.pos =
      ({ walkActor with isWorking := true } : Engineer).pos ∧
     (update emptyWorld 1 { walkActor with isWorking := true }).1.targetPosition
      = ({ walkActor with isWorking := true } : Engineer).targetPosition) :=
  ⟨rfl, claim6_working_holds_position emptyWorld 1
    { walkActor with isWorking := true } rfl⟩

/-- C7: for a blocked requested target T, moveTo stores the deflected
point `T + (cos θ, 0, sin θ) · 3` for the drawn angle θ, whose XZ distance
from T is exactly 3; the stored target is never re-deflected by frames
(each frame either holds or clears it). -/
theorem claim7_deflection (w : World) (θ : ℝ) (e : Engineer) (T : Vec3)
    (cb : Option (Flags → Flags)) (hb : checkCollision w T) :
    (moveTo w θ e T cb).targetPosition =
      some ⟨T.x + Real.cos θ * 3, 0, T.z + Real.sin θ * 3⟩ ∧
    planarDist ⟨T.x + Real.cos θ * 3, 0, T.z + Real.sin θ * 3⟩ T = 3 ∧
    ∀ (w2 : World) (dt : ℝ) (e2 : Engineer) (p : Vec3),
      e2.targetPosition = some p →
        (update w2 dt e2).1.targetPosition = some p ∨
        (update w2 dt e2).1.targetPosition = none := by
  refine ⟨?_, ?_, fun w2 dt e2 p hp =>
    update_target_hold_or_clear w2 dt e2 p hp⟩
  · simp only [moveTo, if_pos hb]
  · apply planarDist_eval _ _ _ (by norm_num)
    show (T.x + Real.cos θ * 3 - T.x) ^ 2 +
        (T.z + Real.sin θ * 3 - T.z) ^ 2 = 3 ^ 2
    have h := Real.sin_sq_add_cos_sq θ
    linear_combination 9 * h

/-- Witness for C7: the origin as requested target, blocked by another
engineer standing there, with deflection angle 0. -/
theorem claim7_witness :
    checkCollision originWorld ⟨0, 0, 0⟩ ∧
    ((moveTo originWorld 0 baseActor ⟨0, 0, 0⟩ none).targetPosition =
        some ⟨(⟨0, 0, 0⟩ : Vec3).x + Real.cos 0 * 3, 0,
          (⟨0, 0, 0⟩ : Vec3).z + Real.sin 0 * 3⟩ ∧
      planarDist ⟨(⟨0, 0, 0⟩ : Vec3).x + Real.cos 0 * 3, 0,
          (⟨0, 0, 0⟩ : Vec3).z + Real.sin 0 * 3⟩ ⟨0, 0, 0⟩ = 3 ∧
      ∀ (w2 : World) (dt : ℝ) (e2 : Engineer) (p : Vec3),
        e2.targetPosition = some p →
          (update w2 dt e2).1.targetPosition = some p ∨
          (update w2 dt e2).1.targetPosition = none) := by
  have hb : checkCollision originWorld ⟨0, 0, 0⟩ := by
    refine Or.inr (Or.inl ?_)
    rw [planarDist_eval _ _ 0 le_rfl (by norm_num)]
    norm_num [engineerRadius]
  exact ⟨hb, claim7_deflection originWorld 0 baseActor ⟨0, 0, 0⟩ none hb⟩

/-- C8: the position produced by one simulation step does not depend on
the deltaTime argument; only the animation mixer consumes deltaTime, the
per-frame movement magnitude being `min(speed, distance)` with no time
scaling. -/
theorem claim8_deltaTime_invariance (w : World) (e : Engineer)
    (d1 d2 : ℝ) :
    (update w d1 e).1.pos = (update w d2 e).1.pos := by
  rw [update_fst, update_fst, stateManage_pos, stateManage_pos]
  exact moveStep_pos_congr w _ _ rfl rfl rfl rfl

/-- C9: when the animation clip for the requested state is missing or not
yet loaded, setState is a complete no-op: the engineer is returned
unchanged (same currentState, same playing animation), with no error. -/
theorem claim9_missing_animation_noop (e : Engineer) (s : EState)
    (hmiss : e.animations (stateAnimationMap s) = false) :
    setState e s = e := by
  unfold setState
  split_ifs with h1
  · rfl
  · rfl

/-- Witness for C9: an actor with no loaded clips asked to enter the
walking state. -/
theorem claim9_witness :
    ({ baseActor with animations := fun _ => false } : Engineer).animations
      (stateAnimationMap EState.walking) = false ∧
    setState { baseActor with animations := fun _ => false } EState.walking =
      { baseActor with animations := fun _ => false } :=
  ⟨rfl, claim9_missing_animation_noop
    { baseActor with animations := fun _ => false } EState.walking rfl⟩

/-- C10: whenever the direct (unblocked) movement step toward the target
is applied, the new planar distance to the target equals the previous
distance minus `min(speed, previous distance)`; in particular the distance
is non-increasing and the actor never overshoots past the target. -/
theorem claim10_direct_step_distance (w : World) (dt : ℝ) (e : Engineer)
    (t : Vec3) (ht : e.targetPosition = some t) (hw : e.isWorking = false)
    (hd5 : 0.5 < planarDist e.pos t) (hsp : 0 ≤ e.speed)
    (hfree : ¬ checkCollision w
      ⟨e.pos.x + (t.x - e.pos.x) / planarDist e.pos t *
          min e.speed (planarDist e.pos t), 0,
        e.pos.z + (t.z - e.pos.z) / planarDist e.pos t *
          min e.speed (planarDist e.pos t)⟩) :
    planarDist (update w dt e).1.pos t =
      planarDist e.pos t - min e.speed (planarDist e.pos t) ∧
    planarDist (update w dt e).1.pos t ≤ planarDist e.pos t := by
  rw [update_fst, stateManage_pos]
  exact step10_aux w { e with mixerTime := e.mixerTime + dt } t ht hw hd5
    hsp hfree

/-- Witness for C10: the actor walking toward `(10, 0, 0)` in an empty
world takes its direct step. -/
theorem claim10_witness :
    (walkActor.targetPosition = some ⟨10, 0, 0⟩ ∧
     walkActor.isWorking = false ∧
     0.5 < planarDist walkActor.pos ⟨10, 0, 0⟩ ∧
     (0 : ℝ) ≤ walkActor.speed ∧
     ¬ checkCollision emptyWorld
       ⟨walkActor.pos.x + ((⟨10, 0, 0⟩ : Vec3).x - walkActor.pos.x) /
           planarDist walkActor.pos ⟨10, 0, 0⟩ *
           min walkActor.speed (planarDist walkActor.pos ⟨10, 0, 0⟩), 0,
         walkActor.pos.z + ((⟨10, 0, 0⟩ : Vec3).z - walkActor.pos.z) /
           planarDist walkActor.pos ⟨10, 0, 0⟩ *
           min walkActor.speed (planarDist walkActor.pos ⟨10, 0, 0⟩)⟩) ∧
    (planarDist (update emptyWorld 1 walkActor).1.pos ⟨10, 0, 0⟩ =
      planarDist walkActor.pos ⟨10, 0, 0⟩ -
        min walkActor.speed (planarDist walkActor.pos ⟨10, 0, 0⟩) ∧
     planarDist (update emptyWorld 1 walkActor).1.pos ⟨10, 0, 0⟩ ≤
      planarDist walkActor.pos ⟨10, 0, 0⟩) := by
  have hd5 : (0.5 : ℝ) < planarDist walkActor.pos ⟨10, 0, 0⟩ := by
    rw [planarDist_eval _ _ 10 (by norm_num) (by norm_num [walkActor, baseActor])]
    norm_num
  have hsp : (0 : ℝ) ≤ walkActor.speed := by norm_num [walkActor, baseActor]
  have hfree : ¬ checkCollision emptyWorld
      ⟨walkActor.pos.x + ((⟨10, 0, 0⟩ : Vec3).x - walkActor.pos.x) /
          planarDist walkActor.pos ⟨10, 0, 0⟩ *
          min walkActor.speed (planarDist walkActor.pos ⟨10, 0, 0⟩), 0,
        walkActor.pos.z + ((⟨10, 0, 0⟩ : Vec3).z - walkActor.pos.z) /
          planarDist walkActor.pos ⟨10, 0, 0⟩ *
          min walkActor.speed (planarDist walkActor.pos ⟨10, 0, 0⟩)⟩ := by
    rintro (h | h) <;> exact h
  exact ⟨⟨rfl, rfl, hd5, hsp, hfree⟩,
    claim10_direct_step_distance emptyWorld 1 walkActor ⟨10, 0, 0⟩ rfl rfl
      hd5 hsp hfree⟩

/-- C1 counterexample: for an actor whose animation clips have not loaded
yet, the working flag does not produce the Working state (setState is a
silent no-op without the clip), so the precedence equation fails as a
statement about every actor and frame. -/
theorem claim1_counterexample :
    ¬ (((update emptyWorld 1 unloadedActor).1).currentState =
      precedenceState ((update emptyWorld 1 unloadedActor).1).isWorking
        ((update emptyWorld 1 unloadedActor).1).isSpeaking
        (midWalk unloadedActor)) := by
  have h1 : (update emptyWorld 1 unloadedActor).1 =
      stateManage
        { unloadedActor with mixerTime := unloadedActor.mixerTime + 1 } := by
    rw [update_fst, moveStep_no_target emptyWorld _ rfl]
  rw [h1]
  simp [stateManage, setState, precedenceState, unloadedActor, baseActor]
